import Mathlib

/-!
Verification development for the zip-bun repository: a shallow embedding of
the handle registry and writer/reader engines of `src/zip_wrapper.c`
(second revision, the one with `MAX_HANDLES`), of the TypeScript classes
`ZipArchiveWriter` / `ZipArchiveReader` (`src/classes/writer.ts`,
`src/classes/reader.ts`, plus the buffer-ladder revision of
`finalizeToMemory` and the legacy `src/index.ts` revision of `addFile`),
and of the entry-metadata codec.

Bytes are modelled as `Nat` (values < 256 are never needed by the claims,
so no bound is carried).  Strings crossing the boundary are byte lists.
The external codec (miniz, `#include`d by the wrapper but not part of the
sources) is modelled from the spec where its behaviour matters; each such
definition carries a doc comment saying so.
-/

/-- Compression level constants from `src/compression.ts` (`CompressionLevel`). -/
def CompressionLevel.NO_COMPRESSION : Nat := 0

/-- Compression level 1 from `src/compression.ts`. -/
def CompressionLevel.BEST_SPEED : Nat := 1

/-- Compression level 9 from `src/compression.ts`. -/
def CompressionLevel.BEST_COMPRESSION : Nat := 9

/-- Balanced compression level 6 from `src/compression.ts`. -/
def CompressionLevel.DEFAULT : Nat := 6

/-- Candidate buffer capacities from `src/compression.ts` (`bufferSizes`):
10 MB, 50 MB, 100 MB, 500 MB, 1 GB. -/
def bufferSizes : List Nat :=
  [10 * 1024 * 1024, 50 * 1024 * 1024, 100 * 1024 * 1024,
   500 * 1024 * 1024, 1024 * 1024 * 1024]

/-- One archive entry as recorded by the codec: name, content bytes and the
compression level it was appended with. -/
structure MzEntry where
  name : List Nat
  data : List Nat
  level : Nat
  deriving DecidableEq, Repr

/-- Modelled from the spec: the writer state machine of the external codec
(§4.2, Created/Appending → Finalized terminal).  `writing` is the
Created/Appending state; `finalized` is terminal. -/
inductive MzWriterMode where
  | writing
  | finalized
  deriving DecidableEq, Repr

/-- Modelled from the spec: the native writer archive context of the external
codec — its mode together with the entries appended so far. -/
structure MzWriterArchive where
  mode : MzWriterMode
  entries : List MzEntry
  deriving DecidableEq, Repr

/-- Modelled from the spec: a finalized archive blob.  The ZIP byte format is
owned by the external codec (§1, §6), so a serialized archive is modelled as
the list of its entries; `parse ∘ serialize = id` is the codec's contract. -/
structure ZipBlob where
  entries : List MzEntry
  deriving DecidableEq, Repr

/-- Modelled from the spec: the byte size of a serialized archive.  The
concrete overheads stand in for the ZIP local/central headers; only the
ordering of this size against candidate capacities matters to the claims. -/
def blobSize (es : List MzEntry) : Nat :=
  22 + (es.map (fun e => 92 + 2 * e.name.length + e.data.length)).sum

/-- Modelled from the spec: `mz_zip_writer_add_mem` — append an entry of
`dataLength` bytes read from `bytes` to a writer archive; succeeds exactly in
the Writing state. -/
def mzZipWriterAddMem (arc : MzWriterArchive) (name : List Nat)
    (bytes : List Nat) (dataLength : Nat) (level : Nat) :
    Bool × MzWriterArchive :=
  match arc.mode with
  | .writing =>
      (true, { arc with entries := arc.entries ++ [⟨name, bytes.take dataLength, level⟩] })
  | .finalized => (false, arc)

/-- Modelled from the spec: `mz_zip_writer_finalize_archive` for a file-backed
archive.  It succeeds only from the Writing state, and the external I/O
outcome is the oracle `ok` (the codec's reported success/failure, §6). -/
def mzZipWriterFinalizeArchive (arc : MzWriterArchive) (ok : Bool) : Bool :=
  match arc.mode with
  | .writing => ok
  | .finalized => false

/-- Modelled from the spec: `mz_zip_writer_finalize_heap_archive` — from the
Writing state it seals the archive (mode becomes Finalized, terminal per
§4.2) and hands back the serialized blob with its size; from any other state
it fails and returns nothing. -/
def mzZipWriterFinalizeHeapArchive (arc : MzWriterArchive) :
    Option (ZipBlob × Nat) × MzWriterArchive :=
  match arc.mode with
  | .writing => (some (⟨arc.entries⟩, blobSize arc.entries), { arc with mode := .finalized })
  | .finalized => (none, arc)

/-- Modelled from the spec: the native reader archive context — the entries
materialized by the codec from the archive's central directory (§3). -/
structure MzReaderArchive where
  entries : List MzEntry
  deriving DecidableEq, Repr

/-- Modelled from the spec: `mz_zip_reader_init_mem` — parsing a serialized
blob recovers exactly the entries that were appended (codec contract, §6). -/
def mzZipReaderInitMem (blob : ZipBlob) : MzReaderArchive :=
  ⟨blob.entries⟩

/-- Modelled from the spec: `mz_zip_reader_get_num_files`. -/
def mzZipReaderGetNumFiles (arc : MzReaderArchive) : Nat :=
  arc.entries.length

/-- Modelled from the spec: `mz_zip_reader_file_stat` — entry metadata for a
valid index, nothing for an out-of-range one. -/
def mzZipReaderFileStat (arc : MzReaderArchive) (idx : Int) : Option MzEntry :=
  if idx < 0 then none else arc.entries.get? idx.toNat

/-- Linear scan for the first entry with the given name, carrying the
running index. -/
def locateAux (name : List Nat) : List MzEntry → Nat → Option Nat
  | [], _ => none
  | e :: rest, i => if e.name = name then some i else locateAux name rest (i + 1)

/-- Modelled from the spec: `mz_zip_reader_locate_file` — index of the entry
with the given name, or `-1` when absent. -/
def mzZipReaderLocateFile (arc : MzReaderArchive) (name : List Nat) : Int :=
  match locateAux name arc.entries 0 with
  | some i => (i : Int)
  | none => -1

/-- Modelled from the spec: `mz_zip_reader_extract_to_mem` — fills a buffer of
capacity `bufSize` with the entry's decompressed bytes; succeeds when the
index is valid and the buffer holds the whole uncompressed content. -/
def mzZipReaderExtractToMem (arc : MzReaderArchive) (idx : Int)
    (bufSize : Nat) : Option (List Nat) :=
  if idx < 0 then none
  else
    match arc.entries.get? idx.toNat with
    | some e => if e.data.length ≤ bufSize then some e.data else none
    | none => none

/-- Payload of one registry slot: the union of writer and reader archive
state from `zip_handle_t` (`zip_wrapper.c`), with `is_writer` recoverable
from the variant. -/
inductive ZipHandlePayload where
  | writer (arc : MzWriterArchive)
  | reader (arc : MzReaderArchive)
  deriving DecidableEq, Repr

/-- The `is_writer` flag of `zip_handle_t`. -/
def ZipHandlePayload.isWriter : ZipHandlePayload → Bool
  | .writer _ => true
  | .reader _ => false

/-- Global state of `zip_wrapper.c`: the `zip_handles[MAX_HANDLES]` table and
the monotone `next_handle_id` counter.  The handle-struct pool is omitted:
per the spec (§4.1) pooling is a performance optimization that must not
change observable behaviour, and it touches no observable state. -/
structure CState where
  handles : Nat → Option ZipHandlePayload
  nextHandleId : Nat

/-- `MAX_HANDLES` from `zip_wrapper.c`. -/
def MAX_HANDLES : Nat := 100

/-- Initial wrapper state: an empty table and a zero counter. -/
def CState.init : CState :=
  ⟨fun _ => none, 0⟩

/-- Slot lookup guard shared by every wrapper function:
`handle_id < 0 || handle_id >= MAX_HANDLES || !zip_handles[handle_id]`. -/
def CState.lookup (st : CState) (id : Int) : Option ZipHandlePayload :=
  if id < 0 ∨ (MAX_HANDLES : Int) ≤ id then none else st.handles id.toNat

/-- Functional update of one registry slot. -/
def CState.setSlot (st : CState) (i : Nat) (v : Option ZipHandlePayload) : CState :=
  { st with handles := fun j => if j = i then v else st.handles j }

/-- `create_zip_in_memory` from `zip_wrapper.c`: refuses once
`next_handle_id` has reached `MAX_HANDLES`, otherwise installs a fresh
writer context at `next_handle_id` and post-increments the counter. -/
def create_zip_in_memory (st : CState) : Int × CState :=
  if MAX_HANDLES ≤ st.nextHandleId then (-1, st)
  else
    ((st.nextHandleId : Int),
     { (st.setSlot st.nextHandleId (some (.writer ⟨.writing, []⟩))) with
        nextHandleId := st.nextHandleId + 1 })

/-- `create_zip` from `zip_wrapper.c` (file-backed): same registry protocol;
`initOk` is the external codec's reported outcome of
`mz_zip_writer_init_file` (opening the destination path can fail). -/
def create_zip (st : CState) (initOk : Bool) : Int × CState :=
  if MAX_HANDLES ≤ st.nextHandleId then (-1, st)
  else if !initOk then (-1, st)
  else
    ((st.nextHandleId : Int),
     { (st.setSlot st.nextHandleId (some (.writer ⟨.writing, []⟩))) with
        nextHandleId := st.nextHandleId + 1 })

/-- `add_file_to_zip` from `zip_wrapper.c`: guard on the slot being a live
writer, then `mz_zip_writer_add_mem`; returns 1 on success and 0 otherwise. -/
def add_file_to_zip (st : CState) (id : Int) (name : List Nat)
    (bytes : List Nat) (dataLength : Nat) (level : Nat) : Int × CState :=
  match st.lookup id with
  | some (.writer arc) =>
      let (status, arc2) := mzZipWriterAddMem arc name bytes dataLength level
      ((if status then 1 else 0), st.setSlot id.toNat (some (.writer arc2)))
  | _ => (0, st)

/-- `finalize_zip` from `zip_wrapper.c`: guard, codec finalize (external
outcome `ok`), then the slot is freed unconditionally and the codec status is
returned as 1/0. -/
def finalize_zip (st : CState) (id : Int) (ok : Bool) : Int × CState :=
  match st.lookup id with
  | some (.writer arc) =>
      let status := mzZipWriterFinalizeArchive arc ok
      ((if status then 1 else 0), st.setSlot id.toNat none)
  | _ => (0, st)

/-- `finalize_zip_in_memory_bytes` from `zip_wrapper.c`: guard, then the
codec's heap finalize runs BEFORE the capacity check; `-1` on codec failure
or empty blob, `-2` when the caller's buffer is smaller than the blob (the
slot stays occupied but the archive has already been sealed), and on success
the blob is copied out, the writer is torn down and the slot freed. -/
def finalize_zip_in_memory_bytes (st : CState) (id : Int) (bufferSize : Nat) :
    Int × Option ZipBlob × CState :=
  match st.lookup id with
  | some (.writer arc) =>
      let (res, arc2) := mzZipWriterFinalizeHeapArchive arc
      match res with
      | none => (-1, none, st.setSlot id.toNat (some (.writer arc2)))
      | some (blob, size) =>
          if size = 0 then (-1, none, st.setSlot id.toNat (some (.writer arc2)))
          else if bufferSize < size then
            (-2, none, st.setSlot id.toNat (some (.writer arc2)))
          else
            ((size : Int), some blob, st.setSlot id.toNat none)
  | _ => (-1, none, st)

/-- `open_zip_from_memory` from `zip_wrapper.c`: registry protocol as in
`create_zip`, installing a reader context parsed from the blob. -/
def open_zip_from_memory (st : CState) (blob : ZipBlob) : Int × CState :=
  if MAX_HANDLES ≤ st.nextHandleId then (-1, st)
  else
    ((st.nextHandleId : Int),
     { (st.setSlot st.nextHandleId (some (.reader (mzZipReaderInitMem blob)))) with
        nextHandleId := st.nextHandleId + 1 })

/-- `get_file_count` from `zip_wrapper.c`: `-1` for an invalid handle or a
writer handle, otherwise the codec's entry count. -/
def get_file_count (st : CState) (id : Int) : Int :=
  match st.lookup id with
  | some (.reader arc) => (mzZipReaderGetNumFiles arc : Int)
  | _ => -1

/-- The fixed-layout `file_info_t` record of `zip_wrapper.c`, with the two
256-byte string fields kept as encoded byte lists. -/
structure FileInfoT where
  filenameField : List Nat
  commentField : List Nat
  uncompressedSize : Nat
  compressedSize : Nat
  isDirectory : Bool
  isEncrypted : Bool
  deriving DecidableEq, Repr

/-- Encoding of one 256-byte string field by `get_file_info`
(`zip_wrapper.c` lines 527-538): copy at most 255 bytes of the
NUL-terminated source string, write a NUL terminator after them; the rest of
the caller's zero-initialized field stays NUL. -/
def encodeField (s : List Nat) : List Nat :=
  let len := min s.length 255
  s.take len ++ List.replicate (256 - len) 0

/-- `get_file_info` from `zip_wrapper.c`: guard on a live reader slot, codec
stat, then the metadata record with truncated-and-NUL-padded string fields.
The writer never attaches comments, so the stat's comment is empty. -/
def get_file_info (st : CState) (id : Int) (idx : Int) : Option FileInfoT :=
  match st.lookup id with
  | some (.reader arc) =>
      match mzZipReaderFileStat arc idx with
      | some e =>
          some ⟨encodeField e.name, encodeField [], e.data.length,
                e.data.length, false, false⟩
      | none => none
  | _ => none

/-- `extract_file_to_buffer` from `zip_wrapper.c`: guard, codec extraction
into a buffer of capacity `bufSize`, then the entry's uncompressed size as
the return code; `-1` on guard or extraction failure.  The second component
is the buffer content the caller observes. -/
def extract_file_to_buffer (st : CState) (id : Int) (idx : Int)
    (bufSize : Nat) : Int × List Nat :=
  match st.lookup id with
  | some (.reader arc) =>
      match mzZipReaderExtractToMem arc idx bufSize with
      | some bytes =>
          match mzZipReaderFileStat arc idx with
          | some e => ((e.data.length : Int), bytes)
          | none => (0, bytes)
      | none => (-1, [])
  | _ => (-1, [])

/-- `find_file` from `zip_wrapper.c`: `-1` for an invalid or writer handle,
otherwise the codec's locate result. -/
def find_file (st : CState) (id : Int) (name : List Nat) : Int :=
  match st.lookup id with
  | some (.reader arc) => mzZipReaderLocateFile arc name
  | _ => -1

/-- `close_zip` from `zip_wrapper.c`: guard, codec teardown (external outcome
`ok`), slot freed unconditionally, status returned as 1/0. -/
def close_zip (st : CState) (id : Int) (ok : Bool) : Int × CState :=
  match st.lookup id with
  | some (.reader _) =>
      ((if ok then 1 else 0), st.setSlot id.toNat none)
  | _ => (0, st)

/-- The polymorphic `FileData` parameter of `addFile`
(`src/interfaces/file.ts`: `NodeJS.TypedArray | ArrayBufferLike | DataView`).
A typed array carries its element size, its element count (the JS `length`
property) and its underlying bytes; the other variants carry only bytes. -/
inductive FileData where
  | typedArray (elemSize : Nat) (length : Nat) (bytes : List Nat)
  | arrayBuffer (bytes : List Nat)
  | dataView (bytes : List Nat)
  deriving DecidableEq, Repr

/-- The JS `"length" in data` test: true exactly for typed arrays. -/
def FileData.hasLength : FileData → Bool
  | .typedArray _ _ _ => true
  | .arrayBuffer _ => false
  | .dataView _ => false

/-- The JS `data.length` property (element count of a typed array). -/
def FileData.length : FileData → Nat
  | .typedArray _ n _ => n
  | .arrayBuffer _ => 0
  | .dataView _ => 0

/-- The underlying byte buffer the native side reads through `ptr(data)`. -/
def FileData.bytes : FileData → List Nat
  | .typedArray _ _ bs => bs
  | .arrayBuffer bs => bs
  | .dataView bs => bs

/-- The JS `data.byteLength` property. -/
def FileData.byteLength (d : FileData) : Nat :=
  d.bytes.length

/-- Byte-count selection of `ZipArchiveWriter.addFile`
(`src/classes/writer.ts` lines 91-97): `data.length` when the object has a
`length` property, else `data.byteLength`. -/
def FileData.dataLength (d : FileData) : Nat :=
  if d.hasLength then d.length else d.byteLength

/-- Errors thrown by the TypeScript layer, one constructor per distinct
`throw new Error(...)` site. -/
inductive TsError where
  | createFailed
  | openFailed
  | alreadyFinalized
  | alreadyClosed
  | wrongFinalizeVariant
  | finalizeFailed
  | archiveTooLarge
  | fileInfoFailed
  | extractFailed
  | fileNotFound
  deriving DecidableEq, Repr

/-- The `ZipArchiveWriter` object state (`src/classes/writer.ts`):
`handleId` and `isMemoryBased`. -/
structure ZipArchiveWriter where
  handleId : Int
  isMemoryBased : Bool
  deriving DecidableEq, Repr

/-- The `new ZipArchiveWriter()` constructor path without a filename
(memory-based): `create_zip_in_memory`, throwing on a negative handle. -/
def ZipArchiveWriter.newInMemory (st : CState) :
    Except TsError (ZipArchiveWriter × CState) :=
  let (id, st2) := create_zip_in_memory st
  if id < 0 then .error .createFailed
  else .ok (⟨id, true⟩, st2)

/-- The `new ZipArchiveWriter(filename)` constructor path (file-based):
`create_zip`, throwing on a negative handle; `initOk` is the codec's
file-open outcome. -/
def ZipArchiveWriter.newFileBased (st : CState) (initOk : Bool) :
    Except TsError (ZipArchiveWriter × CState) :=
  let (id, st2) := create_zip st initOk
  if id < 0 then .error .createFailed
  else .ok (⟨id, false⟩, st2)

/-- `ZipArchiveWriter.addFile` (`src/classes/writer.ts` lines 79-112):
throws once finalized; byte count chosen by `FileData.dataLength`; an absent
`compressionLevel` defaults to `CompressionLevel.NO_COMPRESSION`. -/
def ZipArchiveWriter.addFile (w : ZipArchiveWriter) (st : CState)
    (filename : List Nat) (data : FileData) (compressionLevel : Option Nat) :
    Except TsError (Bool × CState) :=
  if w.handleId = -1 then .error .alreadyFinalized
  else
    let actual := compressionLevel.getD CompressionLevel.NO_COMPRESSION
    let (r, st2) := add_file_to_zip st w.handleId filename data.bytes data.dataLength actual
    .ok (r ≠ 0, st2)

/-- `ZipArchiveWriter.addFile` of the legacy revision (`src/index.ts` lines
175-204, also `src/unnamed/part_008` lines 185-214): identical except that an
absent `compressionLevel` defaults to `CompressionLevel.DEFAULT` (6). -/
def ZipArchiveWriter.addFileIndexTs (w : ZipArchiveWriter) (st : CState)
    (filename : List Nat) (data : FileData) (compressionLevel : Option Nat) :
    Except TsError (Bool × CState) :=
  if w.handleId = -1 then .error .alreadyFinalized
  else
    let actual := compressionLevel.getD CompressionLevel.DEFAULT
    let (r, st2) := add_file_to_zip st w.handleId filename data.bytes data.dataLength actual
    .ok (r ≠ 0, st2)

/-- `ZipArchiveWriter.finalize` (`src/classes/writer.ts` lines 120-132):
throws when already finalized or memory-based; otherwise runs the native
finalize (codec outcome `ok`), sets `handleId` to `-1` unconditionally and
returns the native status as a Boolean. -/
def ZipArchiveWriter.finalize (w : ZipArchiveWriter) (st : CState) (ok : Bool) :
    Except TsError (Bool × ZipArchiveWriter × CState) :=
  if w.handleId = -1 then .error .alreadyFinalized
  else if w.isMemoryBased then .error .wrongFinalizeVariant
  else
    let (r, st2) := finalize_zip st w.handleId ok
    .ok (r ≠ 0, { w with handleId := -1 }, st2)

/-- One record of the buffer ladder: the capacity attempted and the native
result code it produced. -/
structure FinalizeAttempt where
  capacity : Nat
  result : Int
  deriving DecidableEq, Repr

/-- The candidate-capacity loop of the ladder revision of `finalizeToMemory`
(`src/unnamed/part_001` lines 105-131), parameterized by the native attempt
`step`: break on a positive result, continue on `-2`, stop on any other
code.  Returns the final result code, the blob of the successful attempt,
the final state and the trace of attempts made. -/
def finalizeLoop (step : Nat → CState → Int × Option ZipBlob × CState) :
    List Nat → CState → Int × Option ZipBlob × CState × List FinalizeAttempt
  | [], st => (-2, none, st, [])
  | c :: rest, st =>
      let (r, blob, st2) := step c st
      if 0 < r then (r, blob, st2, [⟨c, r⟩])
      else if r = -2 then
        let (r2, b2, st3, tr) := finalizeLoop step rest st2
        (r2, b2, st3, ⟨c, r⟩ :: tr)
      else (r, none, st2, [⟨c, r⟩])

/-- The ladder revision of `finalizeToMemory` with the native attempt left
abstract: the guards of `src/unnamed/part_001` lines 92-99, then the loop
over `bufferSizes`, then the post-loop classification — a positive result
returns the bytes and invalidates the writer, a final `-2` throws the
too-large error, anything else throws the generic finalize failure. -/
def finalizeToMemoryWith (step : Nat → CState → Int × Option ZipBlob × CState)
    (w : ZipArchiveWriter) (st : CState) :
    Except TsError (ZipBlob × ZipArchiveWriter × CState) :=
  if w.handleId = -1 then .error .alreadyFinalized
  else if !w.isMemoryBased then .error .wrongFinalizeVariant
  else
    let (r, blob, st2, _) := finalizeLoop step bufferSizes st
    if 0 < r then
      match blob with
      | some b => .ok (b, { w with handleId := -1 }, st2)
      | none => .error .finalizeFailed
    else if r = -2 then .error .archiveTooLarge
    else .error .finalizeFailed

/-- `ZipArchiveWriter.finalizeToMemory` of the ladder revision
(`src/unnamed/part_001` lines 92-144): the loop instantiated with the real
native `finalize_zip_in_memory_bytes`. -/
def ZipArchiveWriter.finalizeToMemory (w : ZipArchiveWriter) (st : CState) :
    Except TsError (ZipBlob × ZipArchiveWriter × CState) :=
  finalizeToMemoryWith (fun c s => finalize_zip_in_memory_bytes s w.handleId c) w st

/-- The `ZipArchiveReader` object state (`src/classes/reader.ts`). -/
structure ZipArchiveReader where
  handleId : Int
  deriving DecidableEq, Repr

/-- The `new ZipArchiveReader(data)` constructor path for in-memory data
(`src/classes/reader.ts` lines 57-84): `open_zip_from_memory`, throwing on a
negative handle. -/
def ZipArchiveReader.openFromMemory (blob : ZipBlob) (st : CState) :
    Except TsError (ZipArchiveReader × CState) :=
  let (id, st2) := open_zip_from_memory st blob
  if id < 0 then .error .openFailed
  else .ok (⟨id⟩, st2)

/-- `ZipArchiveReader.getFileCount` (`src/classes/reader.ts` lines 133-135):
no handle check and no throw path — whatever the native call returns is
returned to the caller.  The `Except` wrapper only records that the method
cannot throw. -/
def ZipArchiveReader.getFileCount (r : ZipArchiveReader) (st : CState) :
    Except TsError Int :=
  .ok (get_file_count st r.handleId)

/-- The decode step of `getFileByIndex` for the two string fields
(`src/classes/reader.ts` lines 159 and 163): `replace(/\0/g, "")` strips
every NUL byte. -/
def decodeField (bs : List Nat) : List Nat :=
  bs.filter (fun b => b ≠ 0)

/-- The `ZipFile` record returned by the reader
(`src/interfaces/file.ts`). -/
structure ZipFile where
  filename : List Nat
  comment : List Nat
  uncompressedSize : Nat
  compressedSize : Nat
  directory : Bool
  encrypted : Bool
  deriving DecidableEq, Repr

/-- `ZipArchiveReader.getFileByIndex` (`src/classes/reader.ts` lines
143-181): native `get_file_info`, throwing on failure, then decoding of the
fixed-layout record with NUL stripping on the string fields. -/
def ZipArchiveReader.getFileByIndex (r : ZipArchiveReader) (st : CState)
    (index : Int) : Except TsError ZipFile :=
  match get_file_info st r.handleId index with
  | none => .error .fileInfoFailed
  | some info =>
      .ok ⟨decodeField info.filenameField, decodeField info.commentField,
           info.uncompressedSize, info.compressedSize,
           info.isDirectory, info.isEncrypted⟩

/-- `ZipArchiveReader.extractFile` (`src/classes/reader.ts` lines 275-303):
stat for the uncompressed size, allocate exactly that much, extract into it,
throw on a negative code. -/
def ZipArchiveReader.extractFile (r : ZipArchiveReader) (st : CState)
    (index : Int) : Except TsError (List Nat) :=
  match get_file_info st r.handleId index with
  | none => .error .fileInfoFailed
  | some info =>
      let size := info.uncompressedSize
      let (res, data) := extract_file_to_buffer st r.handleId index size
      if res < 0 then .error .extractFailed
      else .ok data

/-- `ZipArchiveReader.extractFileByName` (`src/classes/reader.ts` lines
230-267): its own `find_file` call, throwing the file-not-found error on a
negative index, then the same stat-and-extract sequence as `extractFile`. -/
def ZipArchiveReader.extractFileByName (r : ZipArchiveReader) (st : CState)
    (name : List Nat) : Except TsError (List Nat) :=
  let fileIndex := find_file st r.handleId name
  if fileIndex < 0 then .error .fileNotFound
  else
    match get_file_info st r.handleId fileIndex with
    | none => .error .fileInfoFailed
    | some info =>
        let size := info.uncompressedSize
        let (res, data) := extract_file_to_buffer st r.handleId fileIndex size
        if res < 0 then .error .extractFailed
        else .ok data

/-- `ZipArchiveReader.findFile` (`src/classes/reader.ts` lines 334-338): no
handle check and no throw path; returns the native result as-is. -/
def ZipArchiveReader.findFile (r : ZipArchiveReader) (st : CState)
    (name : List Nat) : Except TsError Int :=
  .ok (find_file st r.handleId name)

/-- `ZipArchiveReader.close` (`src/classes/reader.ts` lines 346-353): throws
once closed; otherwise runs the native close (codec outcome `ok`), sets
`handleId` to `-1` unconditionally and returns the native status. -/
def ZipArchiveReader.close (r : ZipArchiveReader) (st : CState) (ok : Bool) :
    Except TsError (Bool × ZipArchiveReader × CState) :=
  if r.handleId = -1 then .error .alreadyClosed
  else
    let (res, st2) := close_zip st r.handleId ok
    .ok (res ≠ 0, ⟨-1⟩, st2)

/-- The entry list held by the writer archive in a given registry slot
(empty for a free or reader slot); used to observe what `addFile` stored. -/
def entriesAt (st : CState) (i : Nat) : List MzEntry :=
  match st.handles i with
  | some (.writer a) => a.entries
  | _ => []

/-- The `MzEntry` produced by adding one (name, bytes, level) input file
through `addFile` with a `Uint8Array` argument. -/
def c1Entry (f : List Nat × List Nat × Nat) : MzEntry :=
  ⟨f.1, f.2.1, f.2.2⟩

/-- Adding a list of (name, bytes, level) files through
`ZipArchiveWriter.addFile`, each as a `Uint8Array` (element size 1) with an
explicit compression level. -/
def addAllFiles (w : ZipArchiveWriter) :
    CState → List (List Nat × List Nat × Nat) → Except TsError CState
  | st, [] => .ok st
  | st, f :: rest =>
      match w.addFile st f.1 (.typedArray 1 f.2.1.length f.2.1) (some f.2.2) with
      | .error e => .error e
      | .ok (_, st2) => addAllFiles w st2 rest

/-- The end-to-end round-trip pipeline of the claims: a fresh memory-based
writer, all files added via `addFile`, the archive finalized to memory, and
the resulting bytes reopened with a reader. -/
def c1Pipeline (files : List (List Nat × List Nat × Nat)) :
    Except TsError (ZipArchiveReader × CState) :=
  match ZipArchiveWriter.newInMemory CState.init with
  | .error e => .error e
  | .ok (w, st1) =>
      match addAllFiles w st1 files with
      | .error e => .error e
      | .ok st2 =>
          match w.finalizeToMemory st2 with
          | .error e => .error e
          | .ok (blob, _, st3) => ZipArchiveReader.openFromMemory blob st3

/-- Wrapper state after creating one memory writer (handle 0) and appending
one five-byte entry — the concrete scenario for the finalize-retry claim. -/
def c2StateAfterAdd : CState :=
  (add_file_to_zip (create_zip_in_memory CState.init).2 0 [97] [1, 2, 3, 4, 5] 5 0).2

/-- First finalize attempt of the retry scenario: a 10-byte destination
buffer, far smaller than the serialized archive. -/
def c2Attempt1 : Int × Option ZipBlob × CState :=
  finalize_zip_in_memory_bytes c2StateAfterAdd 0 10

/-- Second finalize attempt of the retry scenario, using the next candidate
capacity (50 MB) on the state left behind by the failed first attempt. -/
def c2Attempt2 : Int × Option ZipBlob × CState :=
  finalize_zip_in_memory_bytes c2Attempt1.2.2 0 (50 * 1024 * 1024)

/-- Control run for the retry scenario: the same 50 MB capacity used as a
FIRST attempt on the untouched archive. -/
def c2FreshAttempt : Int × Option ZipBlob × CState :=
  finalize_zip_in_memory_bytes c2StateAfterAdd 0 (50 * 1024 * 1024)

/-- Levels stored by the legacy `src/index.ts` revision of `addFile` when
the compression level is absent: one add into a fresh memory writer. -/
def c3Levels : List Nat :=
  match ZipArchiveWriter.addFileIndexTs ⟨0, true⟩ (create_zip_in_memory CState.init).2
      [97] (.typedArray 1 3 [1, 2, 3]) none with
  | .ok (_, st) => (entriesAt st 0).map MzEntry.level
  | .error _ => []

/-- End-to-end run for the closed-handle claim: write a one-entry archive to
memory, reopen it, close the reader, and hand back the closed reader and the
final state. -/
def c4Run : Except TsError (ZipArchiveReader × CState) :=
  match ZipArchiveWriter.newInMemory CState.init with
  | .error e => .error e
  | .ok (w, st1) =>
      match w.addFile st1 [97] (.typedArray 1 3 [1, 2, 3]) none with
      | .error e => .error e
      | .ok (_, st2) =>
          match w.finalizeToMemory st2 with
          | .error e => .error e
          | .ok (blob, _, st3) =>
              match ZipArchiveReader.openFromMemory blob st3 with
              | .error e => .error e
              | .ok (r, st4) =>
                  match r.close st4 true with
                  | .error e => .error e
                  | .ok (_, r2, st5) => .ok (r2, st5)

/-- `getFileCount` observed on the closed reader of `c4Run`. -/
def c4CountAfterClose : Except TsError Int :=
  match c4Run with
  | .ok (r2, st5) => r2.getFileCount st5
  | .error e => .error e

/-- `findFile` observed on the closed reader of `c4Run`. -/
def c4FindAfterClose : Except TsError Int :=
  match c4Run with
  | .ok (r2, st5) => r2.findFile st5 [97]
  | .error e => .error e

/-- `n` successive `create_zip_in_memory` calls, keeping only the state. -/
def createNMem : Nat → CState → CState
  | 0, st => st
  | n + 1, st => createNMem n (create_zip_in_memory st).2

/-- Registry state with all `MAX_HANDLES` slots ever allocated. -/
def c5Full : CState := createNMem 100 CState.init

/-- The release step of the reuse scenario: `finalize_zip` on handle 0 of
the full registry. -/
def c5AfterRelease : Int × CState := finalize_zip c5Full 0 true

/-- Registry state with one live memory writer at slot 0 (the state produced
by a single `create_zip_in_memory`), used to instantiate writer theorems. -/
def oneWriterState : CState := (create_zip_in_memory CState.init).2

/-- Registry state with one live reader at slot 0 holding a single two-byte
entry named `[97]`, used to instantiate reader theorems. -/
def oneReaderState : CState :=
  ⟨fun j => if j = 0 then some (.reader ⟨[⟨[97], [1, 2], 0⟩]⟩) else none, 1⟩

theorem CState.lookup_eq_handles (st : CState) (hid : Nat) (h : hid < 100) :
    st.lookup (hid : Int) = st.handles hid := by
  have hc : ¬((hid : Int) < 0 ∨ (MAX_HANDLES : Int) ≤ (hid : Int)) := by
    simp only [MAX_HANDLES]
    omega
  rw [CState.lookup, if_neg hc, Int.toNat_natCast]

theorem CState.setSlot_handles_self (st : CState) (i : Nat)
    (v : Option ZipHandlePayload) : (st.setSlot i v).handles i = v := by
  simp [CState.setSlot]

theorem CState.setSlot_nextHandleId (st : CState) (i : Nat)
    (v : Option ZipHandlePayload) :
    (st.setSlot i v).nextHandleId = st.nextHandleId := rfl

theorem natCast_ne_negOne (n : Nat) : (n : Int) ≠ -1 := by omega

theorem addFile_closed (w : ZipArchiveWriter) (st : CState) (name : List Nat)
    (data : FileData) (lvl : Option Nat) (h : w.handleId = -1) :
    w.addFile st name data lvl = .error .alreadyFinalized := by
  simp [ZipArchiveWriter.addFile, h]

theorem addFileIndexTs_closed (w : ZipArchiveWriter) (st : CState)
    (name : List Nat) (data : FileData) (lvl : Option Nat)
    (h : w.handleId = -1) :
    w.addFileIndexTs st name data lvl = .error .alreadyFinalized := by
  simp [ZipArchiveWriter.addFileIndexTs, h]

theorem finalize_closed (w : ZipArchiveWriter) (st : CState) (ok : Bool)
    (h : w.handleId = -1) :
    w.finalize st ok = .error .alreadyFinalized := by
  simp [ZipArchiveWriter.finalize, h]

theorem finalizeToMemoryWith_closed
    (step : Nat → CState → Int × Option ZipBlob × CState)
    (w : ZipArchiveWriter) (st : CState) (h : w.handleId = -1) :
    finalizeToMemoryWith step w st = .error .alreadyFinalized := by
  simp [finalizeToMemoryWith, h]

theorem finalizeToMemory_closed (w : ZipArchiveWriter) (st : CState)
    (h : w.handleId = -1) :
    w.finalizeToMemory st = .error .alreadyFinalized := by
  simp [ZipArchiveWriter.finalizeToMemory, finalizeToMemoryWith, h]

theorem close_closed (r : ZipArchiveReader) (st : CState) (ok : Bool)
    (h : r.handleId = -1) :
    r.close st ok = .error .alreadyClosed := by
  simp [ZipArchiveReader.close, h]

theorem lookup_negOne (st : CState) : st.lookup (-1) = none := by
  simp [CState.lookup]

theorem getFileCount_closed (r : ZipArchiveReader) (st : CState)
    (h : r.handleId = -1) : r.getFileCount st = .ok (-1) := by
  simp [ZipArchiveReader.getFileCount, get_file_count, h, lookup_negOne]

theorem findFile_closed (r : ZipArchiveReader) (st : CState) (name : List Nat)
    (h : r.handleId = -1) : r.findFile st name = .ok (-1) := by
  simp [ZipArchiveReader.findFile, find_file, h, lookup_negOne]

theorem getFileByIndex_closed (r : ZipArchiveReader) (st : CState) (idx : Int)
    (h : r.handleId = -1) :
    r.getFileByIndex st idx = .error .fileInfoFailed := by
  simp [ZipArchiveReader.getFileByIndex, get_file_info, h, lookup_negOne]

theorem extractFile_closed (r : ZipArchiveReader) (st : CState) (idx : Int)
    (h : r.handleId = -1) :
    r.extractFile st idx = .error .fileInfoFailed := by
  simp [ZipArchiveReader.extractFile, get_file_info, h, lookup_negOne]

theorem extractFileByName_closed (r : ZipArchiveReader) (st : CState)
    (name : List Nat) (h : r.handleId = -1) :
    r.extractFileByName st name = .error .fileNotFound := by
  simp [ZipArchiveReader.extractFileByName, find_file, h, lookup_negOne]

theorem decide_if_one_zero (b : Bool) :
    (decide ((if b then (1 : Int) else 0) ≠ 0)) = b := by
  cases b <;> rfl

theorem locateAux_eq_none (name : List Nat) :
    ∀ (es : List MzEntry), (∀ e ∈ es, e.name ≠ name) →
    ∀ i, locateAux name es i = none := by
  intro es
  induction es with
  | nil => intro _ i; rfl
  | cons e rest ih =>
      intro h i
      have hne : e.name ≠ name := h e (List.mem_cons_self e rest)
      simp [locateAux, hne]
      exact ih (fun x hx => h x (List.mem_cons_of_mem e hx)) (i + 1)

theorem encodeField_length (s : List Nat) : (encodeField s).length = 256 := by
  simp [encodeField, List.length_take]

theorem encodeField_byte255 (s : List Nat) : (encodeField s)[255]? = some 0 := by
  simp only [encodeField]
  rw [List.getElem?_append_right (by simp [List.length_take])]
  simp [List.getElem?_replicate, List.length_take]

theorem decodeField_encodeField (s : List Nat) (h : 0 ∉ s) :
    decodeField (encodeField s) = s.take 255 := by
  simp only [decodeField, encodeField, List.filter_append]
  rw [List.filter_replicate_of_neg (by simp), List.append_nil]
  rw [List.filter_eq_self.mpr]
  · rcases Nat.le_total s.length 255 with hle | hle
    · rw [Nat.min_eq_left hle, List.take_length, List.take_of_length_le hle]
    · rw [Nat.min_eq_right hle]
  · intro a ha
    have has : a ∈ s := List.mem_of_mem_take ha
    simp only [ne_eq, decide_eq_true_eq]
    exact fun heq => h (heq ▸ has)

theorem finalizeLoop_capacities_ordered (step : Nat → CState → Int × Option ZipBlob × CState) :
    ∀ (sizes : List Nat) (st : CState),
      ((finalizeLoop step sizes st).2.2.2).map FinalizeAttempt.capacity <+: sizes := by
  intro sizes
  induction sizes with
  | nil => intro st; simp [finalizeLoop]
  | cons c rest ih =>
      intro st
      rcases hstep : step c st with ⟨r, blob, st2⟩
      by_cases h1 : 0 < r
      · simp [finalizeLoop, hstep, h1]
      · by_cases h2 : r = -2
        · rcases hrec : finalizeLoop step rest st2 with ⟨r2, b2, st3, tr⟩
          have hmem := ih st2
          rw [hrec] at hmem
          simp only [finalizeLoop, hstep, h1, h2, hrec, if_neg, if_pos, if_true, if_false]
          simp [h1, List.cons_prefix_cons]
          simpa using hmem
        · simp [finalizeLoop, hstep, h1, h2]

theorem finalizeLoop_dropLast (step : Nat → CState → Int × Option ZipBlob × CState) :
    ∀ (sizes : List Nat) (st : CState) (a : FinalizeAttempt),
      a ∈ ((finalizeLoop step sizes st).2.2.2).dropLast → a.result = -2 := by
  intro sizes
  induction sizes with
  | nil => intro st a ha; simp [finalizeLoop] at ha
  | cons c rest ih =>
      intro st a ha
      rcases hstep : step c st with ⟨r, blob, st2⟩
      by_cases h1 : 0 < r
      · simp [finalizeLoop, hstep, h1] at ha
      · by_cases h2 : r = -2
        · subst h2
          rcases hrec : finalizeLoop step rest st2 with ⟨r2, b2, st3, tr⟩
          simp only [finalizeLoop, hstep, hrec] at ha
          rw [if_neg (by decide : ¬((0 : Int) < -2)), if_pos trivial] at ha
          rcases tr with _ | ⟨t0, tr2⟩
          · simp at ha
          · rw [List.dropLast_cons₂] at ha
            rcases List.mem_cons.mp ha with hEq | hMem
            · subst hEq; rfl
            · have hih := ih st2 a
              rw [hrec] at hih
              exact hih hMem
        · simp [finalizeLoop, hstep, h1, h2] at ha

theorem finalizeLoop_all_neg2 (step : Nat → CState → Int × Option ZipBlob × CState)
    (h : ∀ c s, (step c s).1 = -2) :
    ∀ (sizes : List Nat) (st : CState),
      (finalizeLoop step sizes st).1 = -2 ∧ (finalizeLoop step sizes st).2.1 = none := by
  intro sizes
  induction sizes with
  | nil => intro st; simp [finalizeLoop]
  | cons c rest ih =>
      intro st
      rcases hstep : step c st with ⟨r, blob, st2⟩
      have hr : r = -2 := by
        have := h c st
        rw [hstep] at this
        exact this
      subst hr
      rcases hrec : finalizeLoop step rest st2 with ⟨r2, b2, st3, tr⟩
      have hrest := ih st2
      rw [hrec] at hrest
      have h1r : r2 = -2 := by simpa using hrest.1
      have h2r : b2 = none := by simpa using hrest.2
      subst h1r h2r
      simp [finalizeLoop, hstep, hrec]

theorem finalizeToMemoryWith_all_neg2
    (step : Nat → CState → Int × Option ZipBlob × CState)
    (w : ZipArchiveWriter) (st : CState)
    (h1 : w.handleId ≠ -1) (h2 : w.isMemoryBased = true)
    (h : ∀ c s, (step c s).1 = -2) :
    finalizeToMemoryWith step w st = .error .archiveTooLarge := by
  rcases hrec : finalizeLoop step bufferSizes st with ⟨r2, b2, st3, tr⟩
  have hall := finalizeLoop_all_neg2 step h bufferSizes st
  rw [hrec] at hall
  have hraw : r2 = -2 := by simpa using hall.1
  have hblob : b2 = none := by simpa using hall.2
  subst hraw hblob
  simp [finalizeToMemoryWith, h1, h2, hrec]

theorem addAllFiles_ok (w : ZipArchiveWriter) (hid : Nat)
    (hw : w.handleId = (hid : Int)) (hhid : hid < 100) :
    ∀ (fs : List (List Nat × List Nat × Nat)) (st : CState) (es : List MzEntry),
      st.handles hid = some (.writer ⟨.writing, es⟩) →
      ∃ st2, addAllFiles w st fs = .ok st2 ∧
        st2.handles hid = some (.writer ⟨.writing, es ++ fs.map c1Entry⟩) ∧
        st2.nextHandleId = st.nextHandleId := by
  intro fs
  induction fs with
  | nil =>
      intro st es hslot
      exact ⟨st, rfl, by simpa using hslot, rfl⟩
  | cons f rest ih =>
      intro st es hslot
      have hadd : w.addFile st f.1 (.typedArray 1 f.2.1.length f.2.1) (some f.2.2) =
          .ok (true, st.setSlot hid (some (.writer ⟨.writing, es ++ [c1Entry f]⟩))) := by
        simp [ZipArchiveWriter.addFile, hw, natCast_ne_negOne, add_file_to_zip,
          CState.lookup_eq_handles st hid hhid, hslot, mzZipWriterAddMem,
          FileData.dataLength, FileData.hasLength, FileData.length, FileData.bytes,
          List.take_length, c1Entry]
      obtain ⟨st2, h1, h2, h3⟩ :=
        ih (st.setSlot hid (some (.writer ⟨.writing, es ++ [c1Entry f]⟩)))
           (es ++ [c1Entry f]) (CState.setSlot_handles_self st hid _)
      refine ⟨st2, ?_, ?_, ?_⟩
      · simp only [addAllFiles, hadd, h1]
      · rw [h2]
        simp
      · rw [h3]
        rfl

theorem openFromMemory_ok (blob : ZipBlob) (st : CState)
    (h : st.nextHandleId < 100) :
    ZipArchiveReader.openFromMemory blob st =
      .ok (⟨(st.nextHandleId : Int)⟩,
        { (st.setSlot st.nextHandleId (some (.reader (mzZipReaderInitMem blob)))) with
           nextHandleId := st.nextHandleId + 1 }) := by
  simp [ZipArchiveReader.openFromMemory, open_zip_from_memory, MAX_HANDLES,
    (show ¬(100 ≤ st.nextHandleId) by omega),
    (show ¬((st.nextHandleId : Int) < 0) by omega)]

theorem finalizeToMemory_first (w : ZipArchiveWriter) (hid : Nat) (st : CState)
    (E : List MzEntry)
    (hw : w.handleId = (hid : Int)) (hmem : w.isMemoryBased = true)
    (hhid : hid < 100)
    (hslot : st.handles hid = some (.writer ⟨.writing, E⟩))
    (hsz : blobSize E ≤ 10 * 1024 * 1024) :
    w.finalizeToMemory st =
      .ok (⟨E⟩, { w with handleId := -1 }, st.setSlot hid none) := by
  have hpos : 0 < blobSize E := by
    unfold blobSize
    omega
  have hstep : finalize_zip_in_memory_bytes st (hid : Int) (10 * 1024 * 1024) =
      ((blobSize E : Int), some ⟨E⟩, st.setSlot hid none) := by
    have h0 : ¬(blobSize E = 0) := by omega
    have hlt : ¬(10 * 1024 * 1024 < blobSize E) := by omega
    simp [finalize_zip_in_memory_bytes, CState.lookup_eq_handles st hid hhid, hslot,
      mzZipWriterFinalizeHeapArchive, h0, hlt]
  have hloop : finalizeLoop (fun c s => finalize_zip_in_memory_bytes s (hid : Int) c)
      bufferSizes st =
      ((blobSize E : Int), some ⟨E⟩, st.setSlot hid none,
        [⟨10 * 1024 * 1024, (blobSize E : Int)⟩]) := by
    have hposI : (0 : Int) < (blobSize E : Int) := by exact_mod_cast hpos
    simp only [bufferSizes, finalizeLoop, hstep]
    rw [if_pos hposI]
  simp only [ZipArchiveWriter.finalizeToMemory, finalizeToMemoryWith, hw,
    natCast_ne_negOne, hmem]
  simp only [hloop]
  have hposI : (0 : Int) < (blobSize E : Int) := by exact_mod_cast hpos
  rw [if_neg (by simp)]
  simp [hposI]

theorem extractFile_entry (r : ZipArchiveReader) (rid : Nat) (st : CState)
    (E : List MzEntry) (i : Nat) (e : MzEntry)
    (hr : r.handleId = (rid : Int)) (hrid : rid < 100)
    (hslot : st.handles rid = some (.reader ⟨E⟩)) (hi : E[i]? = some e) :
    r.extractFile st (i : Int) = .ok e.data := by
  have hnn : ¬((i : Int) < 0) := by omega
  have hinfo : get_file_info st r.handleId (i : Int) =
      some ⟨encodeField e.name, encodeField [], e.data.length, e.data.length,
            false, false⟩ := by
    simp [get_file_info, hr, CState.lookup_eq_handles st rid hrid, hslot,
      mzZipReaderFileStat, hnn, hi]
  have hext : extract_file_to_buffer st r.handleId (i : Int) e.data.length =
      ((e.data.length : Int), e.data) := by
    simp [extract_file_to_buffer, hr, CState.lookup_eq_handles st rid hrid, hslot,
      mzZipReaderExtractToMem, mzZipReaderFileStat, hnn, hi]
  simp [ZipArchiveReader.extractFile, hinfo, hext,
    (show ¬((e.data.length : Int) < 0) by omega)]

/-- Claim C2: the claim states that a `finalize_zip_in_memory_bytes` attempt
returning the buffer-too-small code `-2` leaves the underlying archive
unmutated so that the next attempt behaves exactly as a first attempt and
can succeed.  The code violates this: on the concrete one-entry archive the
first attempt (10-byte buffer) returns `-2` and does leave the handle open,
but the codec's one-shot heap finalize has already sealed the archive, so
the retry with the next candidate capacity (50 MB) hard-fails with `-1`,
while the same 50 MB capacity used as a first attempt succeeds with the
archive's 121-byte size. -/
theorem c2_finalize_retry_not_retriable :
    c2Attempt1.1 = -2 ∧
    (c2Attempt1.2.2.handles 0).isSome = true ∧
    c2Attempt2.1 = -1 ∧
    c2FreshAttempt.1 = 121 ∧
    (0 : Int) < c2FreshAttempt.1 := by
  exact ⟨rfl, rfl, rfl, rfl, by decide⟩

/-- Claim C3 (counterexample): the claim says every `addFile` call with an
absent compression level stores the entry at level 0; the legacy
`src/index.ts` revision of `addFile` (also `src/unnamed/part_008`,
`part_009`) defaults the parameter to `CompressionLevel.DEFAULT`, so the
entry is stored at level 6, not 0. -/
theorem c3_absent_level_counterexample :
    c3Levels = [6] ∧ c3Levels ≠ [0] := by
  constructor
  · rfl
  · decide

/-- Claim C3 (amended): in the current class implementation
(`src/classes/writer.ts`) an absent `compressionLevel` stores the entry with
level `CompressionLevel.NO_COMPRESSION` (0), while the legacy `src/index.ts`
revision stores it with `CompressionLevel.DEFAULT` (6). -/
theorem c3_absent_level_defaults (st : CState) (w : ZipArchiveWriter)
    (hid : Nat) (es : List MzEntry) (name : List Nat) (data : FileData)
    (hw : w.handleId = (hid : Int)) (hhid : hid < 100)
    (hslot : st.handles hid = some (.writer ⟨.writing, es⟩)) :
    w.addFile st name data none =
      .ok (true, st.setSlot hid (some (.writer ⟨.writing,
        es ++ [⟨name, data.bytes.take data.dataLength,
          CompressionLevel.NO_COMPRESSION⟩]⟩))) ∧
    w.addFileIndexTs st name data none =
      .ok (true, st.setSlot hid (some (.writer ⟨.writing,
        es ++ [⟨name, data.bytes.take data.dataLength,
          CompressionLevel.DEFAULT⟩]⟩))) := by
  constructor <;>
    simp [ZipArchiveWriter.addFile, ZipArchiveWriter.addFileIndexTs, hw,
      natCast_ne_negOne, add_file_to_zip, CState.lookup_eq_handles st hid hhid,
      hslot, mzZipWriterAddMem]

/-- Witness for claim C3's amended theorem at a concrete writer state. -/
theorem c3_absent_level_defaults_witness :
    (⟨((0 : Nat) : Int), true⟩ : ZipArchiveWriter).addFile oneWriterState [97]
        (.typedArray 1 3 [1, 2, 3]) none =
      .ok (true, oneWriterState.setSlot 0 (some (.writer ⟨.writing,
        [] ++ [⟨[97], (FileData.typedArray 1 3 [1, 2, 3]).bytes.take
          (FileData.typedArray 1 3 [1, 2, 3]).dataLength,
          CompressionLevel.NO_COMPRESSION⟩]⟩))) ∧
    (⟨((0 : Nat) : Int), true⟩ : ZipArchiveWriter).addFileIndexTs oneWriterState [97]
        (.typedArray 1 3 [1, 2, 3]) none =
      .ok (true, oneWriterState.setSlot 0 (some (.writer ⟨.writing,
        [] ++ [⟨[97], (FileData.typedArray 1 3 [1, 2, 3]).bytes.take
          (FileData.typedArray 1 3 [1, 2, 3]).dataLength,
          CompressionLevel.DEFAULT⟩]⟩))) :=
  c3_absent_level_defaults oneWriterState ⟨((0 : Nat) : Int), true⟩ 0 [] [97]
    (.typedArray 1 3 [1, 2, 3]) rfl (by omega) rfl

/-- Claim C4 (counterexample): the claim says every operation on a
finalized/closed handle fails with an explicit error rather than returning a
sentinel with no error; after a full write-reopen-close run, `getFileCount`
and `findFile` on the closed reader return the sentinel `-1` without
throwing. -/
theorem c4_closed_handle_counterexample :
    c4CountAfterClose = .ok (-1) ∧ c4FindAfterClose = .ok (-1) :=
  ⟨rfl, rfl⟩

/-- Claim C4 (amended): on a finalized writer, `addFile`, `finalize` and
`finalizeToMemory` throw the already-finalized error; on a closed reader,
`close` throws already-closed and `getFileByIndex`, `extractFile`,
`extractFileByName` throw (generic) errors — but `getFileCount` and
`findFile` silently return the native `-1` sentinel with no error. -/
theorem c4_destroyed_handle_ops (st : CState) (w : ZipArchiveWriter)
    (r : ZipArchiveReader) (name : List Nat) (data : FileData)
    (lvl : Option Nat) (idx : Int) (okW okR : Bool)
    (hw : w.handleId = -1) (hr : r.handleId = -1) :
    w.addFile st name data lvl = .error .alreadyFinalized ∧
    w.finalize st okW = .error .alreadyFinalized ∧
    w.finalizeToMemory st = .error .alreadyFinalized ∧
    r.close st okR = .error .alreadyClosed ∧
    r.getFileByIndex st idx = .error .fileInfoFailed ∧
    r.extractFile st idx = .error .fileInfoFailed ∧
    r.extractFileByName st name = .error .fileNotFound ∧
    r.getFileCount st = .ok (-1) ∧
    r.findFile st name = .ok (-1) :=
  ⟨addFile_closed w st name data lvl hw, finalize_closed w st okW hw,
   finalizeToMemory_closed w st hw, close_closed r st okR hr,
   getFileByIndex_closed r st idx hr, extractFile_closed r st idx hr,
   extractFileByName_closed r st name hr, getFileCount_closed r st hr,
   findFile_closed r st name hr⟩

/-- Witness for claim C4's amended theorem on concrete destroyed handles. -/
theorem c4_destroyed_handle_ops_witness :
    (⟨-1, true⟩ : ZipArchiveWriter).addFile CState.init [97]
        (.arrayBuffer []) none = .error .alreadyFinalized ∧
    (⟨-1, true⟩ : ZipArchiveWriter).finalize CState.init false =
      .error .alreadyFinalized ∧
    (⟨-1, true⟩ : ZipArchiveWriter).finalizeToMemory CState.init =
      .error .alreadyFinalized ∧
    (⟨-1⟩ : ZipArchiveReader).close CState.init false = .error .alreadyClosed ∧
    (⟨-1⟩ : ZipArchiveReader).getFileByIndex CState.init 0 =
      .error .fileInfoFailed ∧
    (⟨-1⟩ : ZipArchiveReader).extractFile CState.init 0 =
      .error .fileInfoFailed ∧
    (⟨-1⟩ : ZipArchiveReader).extractFileByName CState.init [97] =
      .error .fileNotFound ∧
    (⟨-1⟩ : ZipArchiveReader).getFileCount CState.init = .ok (-1) ∧
    (⟨-1⟩ : ZipArchiveReader).findFile CState.init [97] = .ok (-1) :=
  c4_destroyed_handle_ops CState.init ⟨-1, true⟩ ⟨-1⟩ [97]
    (.arrayBuffer []) none 0 false false rfl rfl

set_option maxRecDepth 4000 in
/-- Claim C5: the claim states that allocation fails with `-1` once
`MAX_HANDLES` handles are simultaneously open and succeeds again, reusing a
freed ID, once one is released.  The exhaustion half holds, but the reuse
half fails: after 100 allocations, `finalize_zip` on handle 0 succeeds and
frees the slot, yet the next `create_zip_in_memory` still returns `-1`
because `next_handle_id` is a monotone counter that is never reset and freed
IDs are never scanned. -/
theorem c5_handle_reuse_never_happens :
    (create_zip_in_memory c5Full).1 = -1 ∧
    c5AfterRelease.1 = 1 ∧
    (c5AfterRelease.2.handles 0) = none ∧
    (create_zip_in_memory c5AfterRelease.2).1 = -1 := by
  exact ⟨by decide, by decide, by decide, by decide⟩

/-- Claim C7: for every open reader and name, `extractFileByName` throws the
file-not-found error exactly when `findFile` returns `-1`, otherwise it
returns the same bytes as `extractFile` at the found index; and `findFile`
never throws, returning `-1` for an absent name. -/
theorem c7_extract_by_name_composes (st : CState) (r : ZipArchiveReader) (rid : Nat)
    (arc : MzReaderArchive) (name : List Nat)
    (hr : r.handleId = (rid : Int)) (hrid : rid < 100)
    (hslot : st.handles rid = some (.reader arc)) :
    (∃ k, r.findFile st name = .ok k) ∧
    ((∀ e ∈ arc.entries, e.name ≠ name) → r.findFile st name = .ok (-1)) ∧
    (r.extractFileByName st name = .error .fileNotFound ↔
      r.findFile st name = .ok (-1)) ∧
    (∀ i : Int, r.findFile st name = .ok i → ¬i < 0 →
      r.extractFileByName st name = r.extractFile st i) := by
  have hff : find_file st r.handleId name = mzZipReaderLocateFile arc name := by
    simp [find_file, hr, CState.lookup_eq_handles st rid hrid, hslot]
  refine ⟨⟨mzZipReaderLocateFile arc name, by simp [ZipArchiveReader.findFile, hff]⟩, ?_, ?_, ?_⟩
  · intro habs
    simp [ZipArchiveReader.findFile, hff, mzZipReaderLocateFile,
      locateAux_eq_none name arc.entries habs 0]
  · constructor
    · intro hext
      simp only [ZipArchiveReader.findFile, hff]
      simp only [ZipArchiveReader.extractFileByName, hff] at hext
      rcases haux : locateAux name arc.entries 0 with _ | j
      · simp [mzZipReaderLocateFile, haux]
      · exfalso
        have hL : mzZipReaderLocateFile arc name = (j : Int) := by
          simp [mzZipReaderLocateFile, haux]
        rw [hL] at hext
        have hj : ¬((j : Int) < 0) := by omega
        rw [if_neg hj] at hext
        rcases hinfo : get_file_info st r.handleId (j : Int) with _ | info <;>
          rw [hinfo] at hext
        · simp at hext
        · by_cases hres :
            (extract_file_to_buffer st r.handleId (j : Int) info.uncompressedSize).1 < 0
          · simp [hres] at hext
          · simp [hres] at hext
    · intro hfind
      have hL : mzZipReaderLocateFile arc name = -1 := by
        simpa [ZipArchiveReader.findFile, hff] using hfind
      simp [ZipArchiveReader.extractFileByName, hff, hL]
  · intro i hfind hneg
    have hL : mzZipReaderLocateFile arc name = i := by
      simpa [ZipArchiveReader.findFile, hff] using hfind
    simp only [ZipArchiveReader.extractFileByName, hff, hL, if_neg hneg,
      ZipArchiveReader.extractFile]

/-- Claim C8: the metadata codec's encode side truncates each string to at
most 255 bytes inside the 256-byte fixed field whose final byte is a NUL
terminator, and the decode side (`getFileByIndex`) strips the NUL padding,
recovering the (truncated) original string. -/
theorem c8_metadata_codec (st : CState) (r : ZipArchiveReader) (rid : Nat)
    (arc : MzReaderArchive) (i : Nat) (e : MzEntry) (s : List Nat)
    (hr : r.handleId = (rid : Int)) (hrid : rid < 100)
    (hslot : st.handles rid = some (.reader arc))
    (hstat : arc.entries[i]? = some e) (hname : 0 ∉ e.name) :
    (encodeField s).length = 256 ∧
    (encodeField s)[255]? = some 0 ∧
    (0 ∉ s → decodeField (encodeField s) = s.take 255) ∧
    r.getFileByIndex st (i : Int) =
      .ok ⟨e.name.take 255, [], e.data.length, e.data.length, false, false⟩ := by
  refine ⟨encodeField_length s, encodeField_byte255 s, decodeField_encodeField s, ?_⟩
  have hnn : ¬((i : Int) < 0) := by omega
  have hinfo : get_file_info st r.handleId (i : Int) =
      some ⟨encodeField e.name, encodeField [], e.data.length, e.data.length, false, false⟩ := by
    simp [get_file_info, hr, CState.lookup_eq_handles st rid hrid, hslot,
      mzZipReaderFileStat, hnn, hstat]
  simp [ZipArchiveReader.getFileByIndex, hinfo,
    decodeField_encodeField e.name hname,
    decodeField_encodeField [] (by simp)]

/-- Claim C9: `finalize()` and `close()` always invalidate the session —
`handleId` becomes `-1` and the native slot is freed — even when the codec
reports failure and the method returns `false`; consequently every
subsequent call on the same object throws the already-finalized /
already-closed error, so a failed finalize/close cannot be retried. -/
theorem c9_finalize_close_invalidate (st st2 st3 st4 : CState) (w : ZipArchiveWriter)
    (r : ZipArchiveReader) (hid rid : Nat) (es : List MzEntry)
    (arc : MzReaderArchive) (okW okR ok2 : Bool)
    (name : List Nat) (data : FileData) (lvl : Option Nat)
    (hw : w.handleId = (hid : Int)) (hhid : hid < 100)
    (hmem : w.isMemoryBased = false)
    (hslot : st.handles hid = some (.writer ⟨.writing, es⟩))
    (hr : r.handleId = (rid : Int)) (hrid : rid < 100)
    (hrslot : st2.handles rid = some (.reader arc)) :
    w.finalize st okW = .ok (okW, ⟨-1, false⟩, st.setSlot hid none) ∧
    (⟨-1, false⟩ : ZipArchiveWriter).addFile st3 name data lvl = .error .alreadyFinalized ∧
    (⟨-1, false⟩ : ZipArchiveWriter).finalize st3 okW = .error .alreadyFinalized ∧
    (⟨-1, false⟩ : ZipArchiveWriter).finalizeToMemory st3 = .error .alreadyFinalized ∧
    r.close st2 okR = .ok (okR, ⟨-1⟩, st2.setSlot rid none) ∧
    (⟨-1⟩ : ZipArchiveReader).close st4 ok2 = .error .alreadyClosed := by
  refine ⟨?_, addFile_closed _ _ _ _ _ rfl, finalize_closed _ _ _ rfl,
    finalizeToMemory_closed _ _ rfl, ?_, close_closed _ _ _ rfl⟩
  · simp [ZipArchiveWriter.finalize, hw, natCast_ne_negOne, hmem, finalize_zip,
      CState.lookup_eq_handles st hid hhid, hslot, mzZipWriterFinalizeArchive,
      decide_if_one_zero]
  · simp [ZipArchiveReader.close, hr, natCast_ne_negOne, close_zip,
      CState.lookup_eq_handles st2 rid hrid, hrslot, decide_if_one_zero]

/-- Claim C10: the byte count passed to the native codec is `data.length`
whenever the object has a `length` property (every typed array) and
`data.byteLength` otherwise (ArrayBuffer, DataView); hence a typed array
with multi-byte elements contributes exactly its element count in bytes,
which differs from its `byteLength`. -/
theorem c10_typed_array_byte_count (es n : Nat) (bytes : List Nat) (st : CState)
    (w : ZipArchiveWriter) (hid : Nat) (ents : List MzEntry)
    (name : List Nat) (lvl : Option Nat)
    (hby : bytes.length = es * n) (hes : 2 ≤ es) (hn : 1 ≤ n)
    (hw : w.handleId = (hid : Int)) (hhid : hid < 100)
    (hslot : st.handles hid = some (.writer ⟨.writing, ents⟩)) :
    (FileData.typedArray es n bytes).dataLength = n ∧
    (FileData.arrayBuffer bytes).dataLength = bytes.length ∧
    (FileData.dataView bytes).dataLength = bytes.length ∧
    w.addFile st name (.typedArray es n bytes) lvl =
      .ok (true, st.setSlot hid (some (.writer ⟨.writing,
        ents ++ [⟨name, bytes.take n, lvl.getD CompressionLevel.NO_COMPRESSION⟩]⟩))) ∧
    (FileData.typedArray es n bytes).dataLength ≠ (FileData.typedArray es n bytes).byteLength := by
  refine ⟨rfl, rfl, rfl, ?_, ?_⟩
  · simp [ZipArchiveWriter.addFile, hw, natCast_ne_negOne, add_file_to_zip,
      CState.lookup_eq_handles st hid hhid, hslot, mzZipWriterAddMem,
      FileData.dataLength, FileData.hasLength, FileData.length, FileData.bytes]
  · have h2 : 2 * n ≤ es * n := Nat.mul_le_mul_right n hes
    simp only [FileData.dataLength, FileData.hasLength, FileData.length,
      FileData.byteLength, FileData.bytes, if_pos]
    omega

/-- Claim C6: the buffer ladder of `finalizeToMemory` uses the fixed
candidate capacities 10 MB, 50 MB, 100 MB, 500 MB, 1 GB in strictly
increasing order; the attempted capacities are always a prefix of that list
taken in order; an attempt is followed by another only when it reported
buffer-too-small (`-2`), so the loop stops at the first successful attempt;
and when every attempt reports buffer-too-small the method throws the
archive-too-large error without returning any bytes. -/
theorem c6_buffer_ladder :
    bufferSizes = [10485760, 52428800, 104857600, 524288000, 1073741824] ∧
    List.Chain' (fun a b => a < b) bufferSizes ∧
    (∀ (w : ZipArchiveWriter) (st : CState),
      w.finalizeToMemory st =
        finalizeToMemoryWith
          (fun c s => finalize_zip_in_memory_bytes s w.handleId c) w st) ∧
    (∀ (step : Nat → CState → Int × Option ZipBlob × CState) (st : CState),
      ((finalizeLoop step bufferSizes st).2.2.2).map FinalizeAttempt.capacity
        <+: bufferSizes) ∧
    (∀ (step : Nat → CState → Int × Option ZipBlob × CState) (st : CState)
        (a : FinalizeAttempt),
      a ∈ ((finalizeLoop step bufferSizes st).2.2.2).dropLast →
        a.result = -2) ∧
    (∀ (step : Nat → CState → Int × Option ZipBlob × CState)
        (w : ZipArchiveWriter) (st : CState),
      w.handleId ≠ -1 → w.isMemoryBased = true →
      (∀ c s, (step c s).1 = -2) →
      finalizeToMemoryWith step w st = .error .archiveTooLarge) :=
  ⟨by decide, by norm_num [bufferSizes, List.chain'_cons],
   fun _ _ => rfl,
   fun step st => finalizeLoop_capacities_ordered step bufferSizes st,
   fun step st a => finalizeLoop_dropLast step bufferSizes st a,
   fun step w st h1 h2 h => finalizeToMemoryWith_all_neg2 step w st h1 h2 h⟩

/-- Witness for claim C6 with a native step that always reports
buffer-too-small: the method throws the archive-too-large error. -/
theorem c6_buffer_ladder_witness :
    finalizeToMemoryWith (fun _ s => (-2, none, s))
      ⟨((0 : Nat) : Int), true⟩ CState.init = .error .archiveTooLarge :=
  c6_buffer_ladder.2.2.2.2.2 (fun _ s => (-2, none, s))
    ⟨((0 : Nat) : Int), true⟩ CState.init (by decide) rfl (fun _ _ => rfl)

/-- Claim C1: for every finite sequence of (name, bytes, level) entries,
each with a compression level 0-9, added via `addFile` to a fresh
memory-based writer (the serialized archive fitting the first candidate
buffer), finalizing to memory and reopening the result with a reader
yields, for every index `i`, extracted bytes equal to the bytes passed to
the i-th `addFile` call — including zero-length entries. -/
theorem c1_round_trip_extract (files : List (List Nat × List Nat × Nat))
    (_hlev : ∀ f ∈ files, f.2.2 ≤ 9)
    (hsz : blobSize (files.map c1Entry) ≤ 10 * 1024 * 1024) :
    ∃ r st, c1Pipeline files = .ok (r, st) ∧
      ∀ (i : Nat) (hi : i < files.length),
        r.extractFile st (i : Int) = .ok (files.get ⟨i, hi⟩).2.1 := by
  obtain ⟨st1, hnew, hslot1, hnext1⟩ :
      ∃ st1, ZipArchiveWriter.newInMemory CState.init =
          .ok (⟨((0 : Nat) : Int), true⟩, st1) ∧
        st1.handles 0 = some (.writer ⟨.writing, []⟩) ∧
        st1.nextHandleId = 1 := ⟨_, rfl, rfl, rfl⟩
  obtain ⟨st2, hAdd, hslot2, hnext2⟩ :=
    addAllFiles_ok ⟨((0 : Nat) : Int), true⟩ 0 rfl (by omega) files st1 [] hslot1
  rw [List.nil_append] at hslot2
  have hfin := finalizeToMemory_first ⟨((0 : Nat) : Int), true⟩ 0 st2
    (files.map c1Entry) rfl rfl (by omega) hslot2 hsz
  have hnext3 : (st2.setSlot 0 none).nextHandleId = 1 := by
    rw [CState.setSlot_nextHandleId, hnext2, hnext1]
  have hopen := openFromMemory_ok ⟨files.map c1Entry⟩ (st2.setSlot 0 none)
    (by rw [hnext3]; omega)
  rw [hnext3] at hopen
  refine ⟨⟨((1 : Nat) : Int)⟩,
    { ((st2.setSlot 0 none).setSlot 1
        (some (.reader (mzZipReaderInitMem ⟨files.map c1Entry⟩)))) with
       nextHandleId := 1 + 1 }, ?_, ?_⟩
  · simp only [c1Pipeline, hnew, hAdd, hfin, hopen]
  · intro i hi
    have hslot4 :
        ({ ((st2.setSlot 0 none).setSlot 1
              (some (.reader (mzZipReaderInitMem ⟨files.map c1Entry⟩)))) with
            nextHandleId := 1 + 1 } : CState).handles 1 =
          some (.reader ⟨files.map c1Entry⟩) := by
      have := CState.setSlot_handles_self (st2.setSlot 0 none) 1
        (some (.reader (mzZipReaderInitMem ⟨files.map c1Entry⟩)))
      simpa [mzZipReaderInitMem] using this
    have hEi : (files.map c1Entry)[i]? = some (c1Entry (files.get ⟨i, hi⟩)) := by
      simp [List.getElem?_map, List.getElem?_eq_getElem hi, List.get_eq_getElem]
    exact extractFile_entry ⟨((1 : Nat) : Int)⟩ 1 _ (files.map c1Entry) i
      (c1Entry (files.get ⟨i, hi⟩)) rfl (by omega) hslot4 hEi

/-- Witness for claim C1 on a concrete two-entry archive whose second entry
has zero-length content. -/
theorem c1_round_trip_extract_witness :
    (∀ f ∈ ([([97], [10, 20, 30], 9), ([98], [], 0)] :
        List (List Nat × List Nat × Nat)), f.2.2 ≤ 9) ∧
    blobSize (([([97], [10, 20, 30], 9), ([98], [], 0)] :
        List (List Nat × List Nat × Nat)).map c1Entry) ≤ 10 * 1024 * 1024 ∧
    (∃ r st,
      c1Pipeline [([97], [10, 20, 30], 9), ([98], [], 0)] = .ok (r, st) ∧
      ∀ (i : Nat) (hi : i < ([([97], [10, 20, 30], 9), ([98], [], 0)] :
          List (List Nat × List Nat × Nat)).length),
        r.extractFile st (i : Int) =
          .ok (([([97], [10, 20, 30], 9), ([98], [], 0)] :
            List (List Nat × List Nat × Nat)).get ⟨i, hi⟩).2.1) :=
  ⟨by decide, by decide,
   c1_round_trip_extract [([97], [10, 20, 30], 9), ([98], [], 0)]
     (by decide) (by decide)⟩

/-- Witness for claim C7 on a concrete one-entry reader and an absent
name. -/
theorem c7_extract_by_name_composes_witness :
    (∃ k, (⟨((0 : Nat) : Int)⟩ : ZipArchiveReader).findFile oneReaderState [98] =
      .ok k) ∧
    ((∀ e ∈ (⟨[⟨[97], [1, 2], 0⟩]⟩ : MzReaderArchive).entries, e.name ≠ [98]) →
      (⟨((0 : Nat) : Int)⟩ : ZipArchiveReader).findFile oneReaderState [98] =
        .ok (-1)) ∧
    ((⟨((0 : Nat) : Int)⟩ : ZipArchiveReader).extractFileByName oneReaderState [98] =
        .error .fileNotFound ↔
      (⟨((0 : Nat) : Int)⟩ : ZipArchiveReader).findFile oneReaderState [98] =
        .ok (-1)) ∧
    (∀ i : Int,
      (⟨((0 : Nat) : Int)⟩ : ZipArchiveReader).findFile oneReaderState [98] =
        .ok i → ¬i < 0 →
      (⟨((0 : Nat) : Int)⟩ : ZipArchiveReader).extractFileByName oneReaderState [98] =
        (⟨((0 : Nat) : Int)⟩ : ZipArchiveReader).extractFile oneReaderState i) :=
  c7_extract_by_name_composes oneReaderState ⟨((0 : Nat) : Int)⟩ 0
    ⟨[⟨[97], [1, 2], 0⟩]⟩ [98] rfl (by omega) rfl

/-- Witness for claim C8 with a 300-byte string (forcing truncation) and a
concrete reader entry. -/
theorem c8_metadata_codec_witness :
    (encodeField (List.replicate 300 65)).length = 256 ∧
    (encodeField (List.replicate 300 65))[255]? = some 0 ∧
    (0 ∉ List.replicate 300 65 →
      decodeField (encodeField (List.replicate 300 65)) =
        (List.replicate 300 65).take 255) ∧
    (⟨((0 : Nat) : Int)⟩ : ZipArchiveReader).getFileByIndex oneReaderState
        ((0 : Nat) : Int) =
      .ok ⟨([97] : List Nat).take 255, [], ([1, 2] : List Nat).length,
           ([1, 2] : List Nat).length, false, false⟩ :=
  c8_metadata_codec oneReaderState ⟨((0 : Nat) : Int)⟩ 0
    ⟨[⟨[97], [1, 2], 0⟩]⟩ 0 ⟨[97], [1, 2], 0⟩ (List.replicate 300 65)
    rfl (by omega) rfl rfl (by decide)

/-- Witness for claim C9 with failing codec outcomes (`false`) on concrete
writer and reader sessions. -/
theorem c9_finalize_close_invalidate_witness :
    (⟨((0 : Nat) : Int), false⟩ : ZipArchiveWriter).finalize oneWriterState false =
      .ok (false, ⟨-1, false⟩, oneWriterState.setSlot 0 none) ∧
    (⟨-1, false⟩ : ZipArchiveWriter).addFile CState.init [97]
        (.arrayBuffer []) none = .error .alreadyFinalized ∧
    (⟨-1, false⟩ : ZipArchiveWriter).finalize CState.init false =
      .error .alreadyFinalized ∧
    (⟨-1, false⟩ : ZipArchiveWriter).finalizeToMemory CState.init =
      .error .alreadyFinalized ∧
    (⟨((0 : Nat) : Int)⟩ : ZipArchiveReader).close oneReaderState false =
      .ok (false, ⟨-1⟩, oneReaderState.setSlot 0 none) ∧
    (⟨-1⟩ : ZipArchiveReader).close CState.init false = .error .alreadyClosed :=
  c9_finalize_close_invalidate oneWriterState oneReaderState CState.init
    CState.init ⟨((0 : Nat) : Int), false⟩ ⟨((0 : Nat) : Int)⟩ 0 0 []
    ⟨[⟨[97], [1, 2], 0⟩]⟩ false false false [97] (.arrayBuffer []) none
    rfl (by omega) rfl rfl rfl (by omega) rfl

/-- Witness for claim C10 with a `Float64Array`-like input: element size 8,
three elements, 24 underlying bytes. -/
theorem c10_typed_array_byte_count_witness :
    (FileData.typedArray 8 3 (List.replicate 24 7)).dataLength = 3 ∧
    (FileData.arrayBuffer (List.replicate 24 7)).dataLength =
      (List.replicate 24 7).length ∧
    (FileData.dataView (List.replicate 24 7)).dataLength =
      (List.replicate 24 7).length ∧
    (⟨((0 : Nat) : Int), true⟩ : ZipArchiveWriter).addFile oneWriterState [97]
        (.typedArray 8 3 (List.replicate 24 7)) none =
      .ok (true, oneWriterState.setSlot 0 (some (.writer ⟨.writing,
        [] ++ [⟨[97], (List.replicate 24 7).take 3,
          (none : Option Nat).getD CompressionLevel.NO_COMPRESSION⟩]⟩))) ∧
    (FileData.typedArray 8 3 (List.replicate 24 7)).dataLength ≠
      (FileData.typedArray 8 3 (List.replicate 24 7)).byteLength :=
  c10_typed_array_byte_count 8 3 (List.replicate 24 7) oneWriterState
    ⟨((0 : Nat) : Int), true⟩ 0 [] [97] none (by decide) (by omega) (by omega)
    rfl (by omega) rfl
